import Mathlib

/-!
Verification development for the concurrent skip list in skiplist.h of the
gameranking repository.  The C++ template code is shallowly embedded over an
explicit heap: node pointers become optional indices into a list of node
records, every compare-and-swap is modelled as a read-compare-write on that
heap, and every loop of the source carries explicit fuel.  Executions are
sequential (single thread); a result of Out.crash models a null-pointer or
out-of-bounds dereference (undefined behaviour in the source), and Out.fuelOut
models a computation that did not finish within the given fuel, so a result
that is Out.fuelOut for every fuel is a non-terminating execution.
-/

namespace GameRank

/-- A C++ pointer Node* : either nullptr or the index of a node in the heap. -/
abbrev Ptr := Option Nat

/-- One skip list node, mirroring struct Node of skiplist.h: key, value, the
immutable top level, the marked and fullyLinked flags, and the forward array
m_pstForward with one successor pointer per level.  The padding member has no
observable behaviour and is omitted. -/
structure Node where
  key : Int
  value : Int
  topLevel : Nat
  marked : Bool
  fullyLinked : Bool
  forward : List Ptr
deriving DecidableEq, Repr

/-- The whole container: MAXLEVEL, the atomic current-level counter, the heap
of allocated nodes, and the ids of the head and tail sentinels. -/
structure SkipState where
  maxLevel : Nat
  currentLevel : Nat
  nodes : List Node
  headId : Nat
  tailId : Nat
deriving DecidableEq, Repr

/-- Memory fault: dereferencing nullptr, a freed or out-of-range id, or an
out-of-range forward slot (all undefined behaviour in the C++ source). -/
inductive EErr where
  | deref : EErr
deriving DecidableEq, Repr

/-- Outcome of a fuelled computation: a memory fault, fuel exhaustion (the
computation is still running), a jump to the retry label carrying the heap as
mutated so far, or a normal result. -/
inductive Out (α : Type) where
  | crash : Out α
  | fuelOut : Out α
  | retry : SkipState → Out α
  | ok : α → Out α
deriving DecidableEq, Repr

/-- Heap lookup of a node id. -/
def getNode (s : SkipState) (id : Nat) : Option Node :=
  s.nodes.get? id

/-- Read p->m_stKey. -/
def readKey (s : SkipState) (p : Ptr) : Except EErr Int :=
  match p with
  | none => .error .deref
  | some id =>
    match getNode s id with
    | none => .error .deref
    | some n => .ok n.key

/-- Read p->m_bMarked. -/
def readMarked (s : SkipState) (p : Ptr) : Except EErr Bool :=
  match p with
  | none => .error .deref
  | some id =>
    match getNode s id with
    | none => .error .deref
    | some n => .ok n.marked

/-- Read p->m_bFullyLinked. -/
def readFully (s : SkipState) (p : Ptr) : Except EErr Bool :=
  match p with
  | none => .error .deref
  | some id =>
    match getNode s id with
    | none => .error .deref
    | some n => .ok n.fullyLinked

/-- Read p->m_iTopLevel. -/
def readTop (s : SkipState) (p : Ptr) : Except EErr Nat :=
  match p with
  | none => .error .deref
  | some id =>
    match getNode s id with
    | none => .error .deref
    | some n => .ok n.topLevel

/-- Read p->m_pstForward[level]. -/
def readFwd (s : SkipState) (p : Ptr) (level : Nat) : Except EErr Ptr :=
  match p with
  | none => .error .deref
  | some id =>
    match getNode s id with
    | none => .error .deref
    | some n =>
      match n.forward.get? level with
      | none => .error .deref
      | some q => .ok q

/-- Write p->m_stValue = v. -/
def writeValue (s : SkipState) (p : Ptr) (v : Int) : Except EErr SkipState :=
  match p with
  | none => .error .deref
  | some id =>
    match getNode s id with
    | none => .error .deref
    | some n => .ok { s with nodes := s.nodes.set id { n with value := v } }

/-- Write p->m_bFullyLinked = b. -/
def writeFully (s : SkipState) (p : Ptr) (b : Bool) : Except EErr SkipState :=
  match p with
  | none => .error .deref
  | some id =>
    match getNode s id with
    | none => .error .deref
    | some n => .ok { s with nodes := s.nodes.set id { n with fullyLinked := b } }

/-- Write p->m_pstForward[level] = v. -/
def writeFwd (s : SkipState) (p : Ptr) (level : Nat) (v : Ptr) : Except EErr SkipState :=
  match p with
  | none => .error .deref
  | some id =>
    match getNode s id with
    | none => .error .deref
    | some n =>
      match n.forward.get? level with
      | none => .error .deref
      | some _ =>
        .ok { s with nodes := s.nodes.set id { n with forward := n.forward.set level v } }

/-- p->m_pstForward[level].compare_exchange_strong(expected, desired): compare
the slot with expected; on equality store desired and report true, otherwise
leave the heap unchanged and report false. -/
def casFwd (s : SkipState) (p : Ptr) (level : Nat) (expected desired : Ptr) :
    Except EErr (Bool × SkipState) :=
  match p with
  | none => .error .deref
  | some id =>
    match getNode s id with
    | none => .error .deref
    | some n =>
      match n.forward.get? level with
      | none => .error .deref
      | some cur =>
        if cur = expected then
          .ok (true,
            { s with nodes := s.nodes.set id { n with forward := n.forward.set level desired } })
        else
          .ok (false, s)

/-- Allocate a fresh node at the end of the heap, returning its id. -/
def allocNode (s : SkipState) (n : Node) : Nat × SkipState :=
  (s.nodes.length, { s with nodes := s.nodes ++ [n] })

/-- delete of the most recently allocated (still unreachable) node. -/
def freeLast (s : SkipState) : SkipState :=
  { s with nodes := s.nodes.dropLast }

/-- The loop of the Node constructor: level+1 forward slots, each nullptr. -/
def initSlots : Nat → List Ptr
  | 0 => []
  | n + 1 => none :: initSlots n

/-- Node(k, v, level): key and value stored, marked and fullyLinked false,
m_pstForward holding level+1 slots all initialised to nullptr, and
m_iTopLevel set to level (lines 23 to 34 of skiplist.h). -/
def Node.init (k v : Int) (level : Nat) : Node :=
  { key := k, value := v, topLevel := level, marked := false, fullyLinked := false,
    forward := initSlots (level + 1) }

/-- SkipList(maxLevel, probability): allocates the tail sentinel (id 0) and the
head sentinel (id 1), both Node(K(), V(), MAXLEVEL) with K = V = int so the
sentinel key and value are 0, links every forward slot of the head to the tail,
and starts the current-level counter at 1 (lines 125 to 140; the source writes
the head and tail through pointer syntax and the model uses heap ids). -/
def mkSkipList (m : Nat) : SkipState :=
  { maxLevel := m, currentLevel := 1,
    nodes := [Node.init 0 0 m,
              { Node.init 0 0 m with forward := List.replicate (m + 1) (some 0) }],
    headId := 1, tailId := 0 }

/-- RandomLevel() (lines 162 to 176), with the stream of comparison outcomes
(draw below PROBABILITY) supplied as a list of booleans: starts at 1 and keeps
incrementing while a draw succeeds and the level is below MAXLEVEL. -/
def RandomLevelM (maxLevel : Nat) : List Bool → Nat → Nat
  | [], lvl => lvl
  | d :: ds, lvl =>
    if d ∧ lvl < maxLevel then RandomLevelM maxLevel ds (lvl + 1) else lvl

/-- The inner while loop of FindNode at one level (lines 77 to 112): with
pred and curr in hand, read succ = curr->m_pstForward[level] and
curr->m_bMarked; a marked curr is snipped out by a CAS on the pred forward
slot (failure jumps to the retry label, reported as Out.retry with the heap as
mutated so far); an unmarked curr with key below the target advances pred and
curr, otherwise the loop ends and yields the final pred, curr and succ. -/
def walkLevel (key : Int) (level : Nat) : Nat → SkipState → Ptr → Ptr →
    Out (Ptr × Ptr × Ptr × SkipState)
  | 0, _, _, _ => .fuelOut
  | fuel + 1, s, pred, curr =>
    match readFwd s curr level with
    | .error _ => .crash
    | .ok succ =>
      match readMarked s curr with
      | .error _ => .crash
      | .ok true =>
        match casFwd s pred level curr succ with
        | .error _ => .crash
        | .ok (false, s1) => .retry s1
        | .ok (true, s1) =>
          match readFwd s1 pred level with
          | .error _ => .crash
          | .ok c1 => walkLevel key level fuel s1 pred c1
      | .ok false =>
        match readKey s curr with
        | .error _ => .crash
        | .ok k =>
          if k < key then walkLevel key level fuel s curr succ
          else .ok (pred, curr, succ, s)

/-- Result of FindNode: the returned boolean, the preds and succs arrays (a
slot is none while still uninitialised, and some p once the walk stored the
pointer p into it), and the heap after the walk. -/
structure FindDone where
  found : Bool
  preds : List (Option Ptr)
  succs : List (Option Ptr)
  state : SkipState
deriving DecidableEq, Repr

/-- The level descent of FindNode (lines 72 to 119): at each level read
curr = pred->m_pstForward[level], run the inner walk, then store pred into
preds[level] and succ into succs[level]; below level 0 the routine returns
whether the key of the final curr equals the target. -/
def levelsLoop (key : Int) (wf : Nat) :
    Nat → SkipState → Ptr → List (Option Ptr) → List (Option Ptr) → Out FindDone
  | 0, s, pred, preds, succs =>
    match readFwd s pred 0 with
    | .error _ => .crash
    | .ok curr =>
      match walkLevel key 0 wf s pred curr with
      | .crash => .crash
      | .fuelOut => .fuelOut
      | .retry s1 => .retry s1
      | .ok (p, c, sc, s1) =>
        match readKey s1 c with
        | .error _ => .crash
        | .ok k =>
          .ok ⟨decide (k = key), preds.set 0 (some p), succs.set 0 (some sc), s1⟩
  | l + 1, s, pred, preds, succs =>
    match readFwd s pred (l + 1) with
    | .error _ => .crash
    | .ok curr =>
      match walkLevel key (l + 1) wf s pred curr with
      | .crash => .crash
      | .fuelOut => .fuelOut
      | .retry s1 => .retry s1
      | .ok (p, _c, sc, s1) =>
        levelsLoop key wf l s1 p (preds.set (l + 1) (some p)) (succs.set (l + 1) (some sc))

/-- FindNode(key, preds, succs) (lines 57 to 121): the outer retry loop.  Each
attempt starts from the head at the current max level with the preds and succs
arrays of MAXLEVEL+1 slots; a jump to the retry label restarts the descent on
the mutated heap.  wf bounds the steps of each inner walk and rf the number of
restarts. -/
def FindNodeM (key : Int) (wf : Nat) : Nat → SkipState → Out FindDone
  | 0, _ => .fuelOut
  | rf + 1, s =>
    match levelsLoop key wf s.currentLevel s (some s.headId)
        (List.replicate (s.maxLevel + 1) none) (List.replicate (s.maxLevel + 1) none) with
    | .retry s1 => FindNodeM key wf rf s1
    | .crash => .crash
    | .fuelOut => .fuelOut
    | .ok fd => .ok fd

/-- The spin of the Insert update path (line 195): busy-wait until the found
node reports m_bFullyLinked.  On a sequential execution the flag cannot
change, so a false flag spins the fuel away. -/
def spinFully (s : SkipState) (p : Ptr) : Nat → Out Unit
  | 0 => .fuelOut
  | fuel + 1 =>
    match readFully s p with
    | .error _ => .crash
    | .ok true => .ok ()
    | .ok false => spinFully s p fuel

/-- The first loop of the Insert new-node path, for level = 0 while
level < iTopLevel (lines 208 to 212): copy succs[level] into the forward slot
of the new node at that level.  The source line writes the pointer into
m_bFullyLinked[level], which is ill typed (std::atomic of bool is not an
array and cannot hold a Node pointer); the model performs the assignment into
m_pstForward[level] that the comment on the line documents.  Reading a succs
slot never written by FindNode is an uninitialised read and crashes. -/
def setFwdFromSuccs (id : Nat) (succs : List (Option Ptr)) :
    Nat → Nat → SkipState → Out SkipState
  | 0, _, s => .ok s
  | cnt + 1, level, s =>
    match succs.get? level with
    | some (some q) =>
      match writeFwd s (some id) level q with
      | .error _ => .crash
      | .ok s1 => setFwdFromSuccs id succs cnt (level + 1) s1
    | _ => .crash

/-- The per-level retry loop of the Insert upper splice (lines 232 to 248):
reload pred and succ from the arrays; if the forward slot of the new node at
this level still holds succ, CAS the pred forward slot from succ to the new
node and stop on success; otherwise rerun FindNode to refresh the arrays and
try again. -/
def spliceOneLevel (key : Int) (newId : Nat) (level : Nat) (aux : Nat) :
    Nat → SkipState → List (Option Ptr) → List (Option Ptr) →
    Out (SkipState × List (Option Ptr) × List (Option Ptr))
  | 0, _, _, _ => .fuelOut
  | fuel + 1, s, preds, succs =>
    match preds.get? level, succs.get? level with
    | some (some pv), some (some sv) =>
      match readFwd s (some newId) level with
      | .error _ => .crash
      | .ok nf =>
        if nf = sv then
          match casFwd s pv level sv (some newId) with
          | .error _ => .crash
          | .ok (true, s1) => .ok (s1, preds, succs)
          | .ok (false, s1) =>
            match FindNodeM key aux aux s1 with
            | .crash => .crash
            | .fuelOut => .fuelOut
            | .retry _ => .fuelOut
            | .ok fd => spliceOneLevel key newId level aux fuel fd.state fd.preds fd.succs
        else
          match FindNodeM key aux aux s with
          | .crash => .crash
          | .fuelOut => .fuelOut
          | .retry _ => .fuelOut
          | .ok fd => spliceOneLevel key newId level aux fuel fd.state fd.preds fd.succs
    | _, _ => .crash

/-- The for loop over levels 1 to iTopLevel-1 of the Insert new-node path
(lines 230 to 249), as a countdown over the remaining levels. -/
def spliceUpper (key : Int) (newId : Nat) (aux : Nat) :
    Nat → Nat → SkipState → List (Option Ptr) → List (Option Ptr) →
    Out (SkipState × List (Option Ptr) × List (Option Ptr))
  | 0, _, s, preds, succs => .ok (s, preds, succs)
  | cnt + 1, level, s, preds, succs =>
    match spliceOneLevel key newId level aux aux s preds succs with
    | .crash => .crash
    | .fuelOut => .fuelOut
    | .retry t => .retry t
    | .ok (s1, p1, q1) => spliceUpper key newId aux cnt (level + 1) s1 p1 q1

/-- The current-level raise loop of Insert (lines 252 to 261): while the
counter is below iTopLevel, load it into iOldLevel and, only when
iOldLevel >= iTopLevel holds, CAS the counter to iTopLevel (a sequential CAS
with a just-loaded expected value always succeeds).  Returns the final value
of the counter, or none when the loop never exits. -/
def updateCurrentLevel (top cur : Nat) : Nat → Option Nat
  | 0 => if cur < top then none else some cur
  | fuel + 1 =>
    if cur < top then
      if top ≤ cur then some top else updateCurrentLevel top cur fuel
    else some cur

/-- The Insert update path (lines 190 to 202) on the node pf = succs[0]: if pf
is marked, continue the outer loop (reported as Out.retry); otherwise spin
until pf is fully linked, overwrite its value and return true. -/
def insertFound (value : Int) (aux : Nat) (s : SkipState) (pf : Ptr) :
    Out (Bool × SkipState) :=
  match readMarked s pf with
  | .error _ => .crash
  | .ok true => .retry s
  | .ok false =>
    match spinFully s pf aux with
    | .crash => .crash
    | .fuelOut => .fuelOut
    | .retry t => .retry t
    | .ok _ =>
      match writeValue s pf value with
      | .error _ => .crash
      | .ok t => .ok (true, t)

/-- The Insert new-node path (lines 205 to 265): allocate Node(key, value,
iTopLevel); copy succs into its forward slots; load both pstPred and pstSucc
from succs[0] (line 215 reads pstSuccs[0] where its own comment announces the
lowest-level predecessor); write the level-0 forward slot of the new node;
CAS the level-0 forward slot of pstPred from pstSucc to the new node, deleting
the node and continuing the outer loop on failure; then splice the upper
levels, run the current-level raise loop, set m_bFullyLinked and return
true. -/
def insertNew (key value : Int) (top aux : Nat) (fd : FindDone) :
    Out (Bool × SkipState) :=
  match allocNode fd.state (Node.init key value top) with
  | (newId, s1) =>
    match setFwdFromSuccs newId fd.succs top 0 s1 with
    | .crash => .crash
    | .fuelOut => .fuelOut
    | .retry t => .retry t
    | .ok s2 =>
      match fd.succs.get? 0 with
      | some (some sc0) =>
        match writeFwd s2 (some newId) 0 sc0 with
        | .error _ => .crash
        | .ok s3 =>
          match casFwd s3 sc0 0 sc0 (some newId) with
          | .error _ => .crash
          | .ok (false, s4) => .retry (freeLast s4)
          | .ok (true, s4) =>
            match spliceUpper key newId aux (top - 1) 1 s4 fd.preds fd.succs with
            | .crash => .crash
            | .fuelOut => .fuelOut
            | .retry t => .retry t
            | .ok (s5, _, _) =>
              match updateCurrentLevel top s5.currentLevel aux with
              | none => .fuelOut
              | some c =>
                match writeFully { s5 with currentLevel := c } (some newId) true with
                | .error _ => .crash
                | .ok s6 => .ok (true, s6)
      | _ => .crash

/-- Insert(key, value) (lines 179 to 267) with the precomputed random top
level passed in: the outer while loop calls FindNode and dispatches on the
result; a found key takes the update path on succs[0], an absent key takes
the new-node path; Out.retry from either path continues the loop. -/
def InsertM (key value : Int) (top aux : Nat) : Nat → SkipState → Out (Bool × SkipState)
  | 0, _ => .fuelOut
  | fuel + 1, s =>
    match FindNodeM key aux aux s with
    | .crash => .crash
    | .fuelOut => .fuelOut
    | .retry _ => .fuelOut
    | .ok fd =>
      match
        (if fd.found then
          match fd.succs.get? 0 with
          | some (some pf) => insertFound value aux fd.state pf
          | _ => .crash
        else insertNew key value top aux fd) with
      | .retry t => InsertM key value top aux fuel t
      | .crash => .crash
      | .fuelOut => .fuelOut
      | .ok r => .ok r

/-- The level loop of Remove (lines 289 to 293): for level starting at the
top level of the found node, while level >= iBottomLevel + 1, with an empty
body and a ++level increment; with a positive starting level the loop
condition stays true forever. -/
def remLevelLoop : Nat → Nat → Out Unit
  | 0, _ => .fuelOut
  | fuel + 1, level => if 1 ≤ level then remLevelLoop fuel (level + 1) else .ok ()

/-- Remove(key) (lines 270 to 297): the outer while loop calls FindNode and
returns false when the key is absent; when found it reads succs[0] and its
top level, runs the empty level loop, and (the loop body performing nothing)
falls through to the next iteration of the while loop. -/
def RemoveM (key : Int) (aux : Nat) : Nat → SkipState → Out (Bool × SkipState)
  | 0, _ => .fuelOut
  | fuel + 1, s =>
    match FindNodeM key aux aux s with
    | .crash => .crash
    | .fuelOut => .fuelOut
    | .retry _ => .fuelOut
    | .ok fd =>
      if fd.found then
        match fd.succs.get? 0 with
        | some (some pf) =>
          match readTop fd.state pf with
          | .error _ => .crash
          | .ok top =>
            match remLevelLoop aux top with
            | .crash => .crash
            | .fuelOut => .fuelOut
            | .retry t => .retry t
            | .ok _ => RemoveM key aux fuel fd.state
        | _ => .crash
      else .ok (false, fd.state)

/-- A live fully linked node holding key -5 and value 10 at top level 0,
whose level-0 successor is the tail sentinel (heap id 0). -/
def nodeA : Node :=
  { key := -5, value := 10, topLevel := 0, marked := false, fullyLinked := true,
    forward := [some 0] }

/-- A live fully linked node holding key -3 and value 20 at top level 0,
whose level-0 successor is the tail sentinel (heap id 0). -/
def nodeB : Node :=
  { key := -3, value := 20, topLevel := 0, marked := false, fullyLinked := true,
    forward := [some 0] }

/-- A skip list with MAXLEVEL 2 holding the single live key -5: heap
[tail, head, nodeA] with the head linked to nodeA at level 0 and to the tail
above. -/
def s0 : SkipState :=
  { maxLevel := 2, currentLevel := 1, headId := 1, tailId := 0,
    nodes := [Node.init 0 0 2,
              { Node.init 0 0 2 with forward := [some 2, some 0, some 0] },
              nodeA] }

/-- A skip list with MAXLEVEL 2 holding the live keys -5 (value 10, heap id 2)
and -3 (value 20, heap id 3) in level-0 order head, -5, -3, tail. -/
def s3 : SkipState :=
  { maxLevel := 2, currentLevel := 1, headId := 1, tailId := 0,
    nodes := [Node.init 0 0 2,
              { Node.init 0 0 2 with forward := [some 2, some 0, some 0] },
              { nodeA with forward := [some 3] },
              nodeB] }

/-- A skip list with MAXLEVEL 2 holding the single live key -3 (heap id 2). -/
def s4 : SkipState :=
  { maxLevel := 2, currentLevel := 1, headId := 1, tailId := 0,
    nodes := [Node.init 0 0 2,
              { Node.init 0 0 2 with forward := [some 2, some 0, some 0] },
              nodeB] }

/-- The result FindNode(-5) computes on s0: found, with the head recorded as
predecessor at levels 0 and 1, the tail (id 0) recorded in succs[0], and the
forward pointer of the tail at level 1 (nullptr) recorded in succs[1]. -/
def fd0 : FindDone :=
  ⟨true, [some (some 1), some (some 1), none], [some (some 0), some none, none], s0⟩

/-- The result FindNode(-5) computes on s3: found, with nodeB (id 3) recorded
in succs[0]. -/
def fd3 : FindDone :=
  ⟨true, [some (some 1), some (some 1), none], [some (some 3), some none, none], s3⟩

/-- s3 after Insert(-5, 99): the value 99 lands in nodeB (key -3, id 3) while
the node with key -5 keeps value 10. -/
def s3upd : SkipState :=
  { maxLevel := 2, currentLevel := 1, headId := 1, tailId := 0,
    nodes := [Node.init 0 0 2,
              { Node.init 0 0 2 with forward := [some 2, some 0, some 0] },
              { nodeA with forward := [some 3] },
              { nodeB with value := 99 }] }

/-- Projection of a node onto every field except the forward array. -/
def skel (n : Node) : Int × Int × Nat × Bool × Bool :=
  (n.key, n.value, n.topLevel, n.marked, n.fullyLinked)

/-- The heap t differs from s at most in forward arrays: all container fields
agree and, slot for slot, the nodes have the same key, value, top level,
marked flag and fullyLinked flag. -/
def FwdOnly (s t : SkipState) : Prop :=
  t.maxLevel = s.maxLevel ∧ t.currentLevel = s.currentLevel ∧ t.headId = s.headId ∧
  t.tailId = s.tailId ∧ ∀ i, (t.nodes.get? i).map skel = (s.nodes.get? i).map skel

theorem fwdOnly_refl (s : SkipState) : FwdOnly s s :=
  ⟨rfl, rfl, rfl, rfl, fun _ => rfl⟩

theorem fwdOnly_trans {s t u : SkipState} (h1 : FwdOnly s t) (h2 : FwdOnly t u) :
    FwdOnly s u := by
  obtain ⟨a1, b1, c1, d1, e1⟩ := h1
  obtain ⟨a2, b2, c2, d2, e2⟩ := h2
  exact ⟨a2.trans a1, b2.trans b1, c2.trans c1, d2.trans d1, fun i => (e2 i).trans (e1 i)⟩

theorem map_skel_set {xs : List Node} {id : Nat} {n m : Node}
    (hget : xs.get? id = some n) (hsk : skel m = skel n) :
    ∀ j, ((xs.set id m).get? j).map skel = (xs.get? j).map skel := by
  intro j
  by_cases h : id = j
  · subst h
    rw [List.get?_set_eq, hget]
    simp [hsk]
  · rw [List.get?_set_ne _ _ h]

theorem writeFwd_fwdOnly {s : SkipState} {p : Ptr} {level : Nat} {v : Ptr} {t : SkipState}
    (h : writeFwd s p level v = .ok t) : FwdOnly s t := by
  unfold writeFwd at h
  split at h
  · cases h
  · rename_i id
    unfold getNode at h
    split at h
    · cases h
    · rename_i n hget
      split at h
      · cases h
      · cases h
        exact ⟨rfl, rfl, rfl, rfl, map_skel_set hget rfl⟩

theorem casFwd_fwdOnly {s : SkipState} {p : Ptr} {level : Nat} {e d : Ptr}
    {b : Bool} {t : SkipState}
    (h : casFwd s p level e d = .ok (b, t)) : FwdOnly s t := by
  unfold casFwd at h
  split at h
  · cases h
  · rename_i id
    unfold getNode at h
    split at h
    · cases h
    · rename_i n hget
      split at h
      · cases h
      · split at h
        · cases h
          exact ⟨rfl, rfl, rfl, rfl, map_skel_set hget rfl⟩
        · cases h
          exact fwdOnly_refl s

theorem walkLevel_fwdOnly (key : Int) (level : Nat) :
    ∀ (fuel : Nat) (s : SkipState) (pred curr : Ptr),
      (∀ t, walkLevel key level fuel s pred curr = .retry t → FwdOnly s t) ∧
      (∀ p c sc t, walkLevel key level fuel s pred curr = .ok (p, c, sc, t) → FwdOnly s t) := by
  intro fuel
  induction fuel with
  | zero =>
    intro s pred curr
    refine ⟨?_, ?_⟩
    · intro t h; cases h
    · intro p c sc t h; cases h
  | succ f ih =>
    intro s pred curr
    constructor
    · intro t h
      simp only [walkLevel] at h
      split at h
      · cases h
      · split at h
        · cases h
        · -- readMarked = .ok true
          split at h
          · cases h
          · -- casFwd = .ok (false, s1): the retry exit
            rename_i s1 hcas
            cases h
            exact casFwd_fwdOnly hcas
          · -- casFwd = .ok (true, s1): snip succeeded, reread and recurse
            split at h
            · cases h
            · rename_i xa s1 hcas xb c1 hrd
              exact fwdOnly_trans (casFwd_fwdOnly hcas) ((ih s1 pred c1).1 t h)
        · -- readMarked = .ok false
          split at h
          · cases h
          · split at h
            · exact (ih s curr _).1 t h
            · cases h
    · intro p c sc t h
      simp only [walkLevel] at h
      split at h
      · cases h
      · split at h
        · cases h
        · split at h
          · cases h
          · cases h
          · split at h
            · cases h
            · rename_i xa s1 hcas xb c1 hrd
              exact fwdOnly_trans (casFwd_fwdOnly hcas) ((ih s1 pred c1).2 p c sc t h)
        · split at h
          · cases h
          · split at h
            · exact (ih s curr _).2 p c sc t h
            · cases h
              exact fwdOnly_refl s

theorem levelsLoop_fwdOnly (key : Int) (wf : Nat) :
    ∀ (level : Nat) (s : SkipState) (pred : Ptr) (preds succs : List (Option Ptr)),
      (∀ t, levelsLoop key wf level s pred preds succs = .retry t → FwdOnly s t) ∧
      (∀ fd, levelsLoop key wf level s pred preds succs = .ok fd → FwdOnly s fd.state) := by
  intro level
  induction level with
  | zero =>
    intro s pred preds succs
    constructor
    · intro t h
      simp only [levelsLoop] at h
      split at h
      · cases h
      · split at h
        · cases h
        · cases h
        · rename_i s1 hwalk
          cases h
          exact (walkLevel_fwdOnly key 0 wf s pred _).1 t hwalk
        · split at h
          · cases h
          · cases h
    · intro fd h
      simp only [levelsLoop] at h
      split at h
      · cases h
      · split at h
        · cases h
        · cases h
        · cases h
        · split at h
          · cases h
          · rename_i xa p c sc s1 hwalk xb k hk
            cases h
            exact (walkLevel_fwdOnly key 0 wf s pred _).2 p c sc s1 hwalk
  | succ l ih =>
    intro s pred preds succs
    constructor
    · intro t h
      simp only [levelsLoop] at h
      split at h
      · cases h
      · split at h
        · cases h
        · cases h
        · rename_i s1 hwalk
          cases h
          exact (walkLevel_fwdOnly key (l + 1) wf s pred _).1 t hwalk
        · rename_i xa p c sc s1 hwalk
          exact fwdOnly_trans ((walkLevel_fwdOnly key (l + 1) wf s pred _).2 p c sc s1 hwalk)
            ((ih s1 p _ _).1 t h)
    · intro fd h
      simp only [levelsLoop] at h
      split at h
      · cases h
      · split at h
        · cases h
        · cases h
        · cases h
        · rename_i xa p c sc s1 hwalk
          exact fwdOnly_trans ((walkLevel_fwdOnly key (l + 1) wf s pred _).2 p c sc s1 hwalk)
            ((ih s1 p _ _).2 fd h)

theorem findNodeM_fwdOnly (key : Int) (wf : Nat) :
    ∀ (rf : Nat) (s : SkipState) (fd : FindDone),
      FindNodeM key wf rf s = .ok fd → FwdOnly s fd.state := by
  intro rf
  induction rf with
  | zero => intro s fd h; cases h
  | succ r ih =>
    intro s fd h
    simp only [FindNodeM] at h
    split at h
    · rename_i s1 hlev
      exact fwdOnly_trans
        ((levelsLoop_fwdOnly key wf s.currentLevel s (some s.headId) _ _).1 s1 hlev)
        (ih s1 fd h)
    · cases h
    · cases h
    · rename_i fd1 hlev
      cases h
      exact (levelsLoop_fwdOnly key wf s.currentLevel s (some s.headId) _ _).2 fd hlev

theorem initSlots_eq : ∀ n, initSlots n = List.replicate n none := by
  intro n
  induction n with
  | zero => rfl
  | succ m ih => show none :: initSlots m = none :: List.replicate m none; rw [ih]

theorem remLevelLoop_pos : ∀ (fuel level : Nat), 1 ≤ level →
    remLevelLoop fuel level = .fuelOut := by
  intro fuel
  induction fuel with
  | zero => intro level _; rfl
  | succ f ih =>
    intro level h
    show (if 1 ≤ level then remLevelLoop f (level + 1) else .ok ()) = .fuelOut
    rw [if_pos h]
    exact ih (level + 1) (Nat.le_succ_of_le h)

/-- One step of Remove(-5) on s0: FindNode finds the key, succs[0] is the tail
(top level 2), and the execution enters the empty level loop. -/
theorem removeM_s0_step : ∀ (aux fuel : Nat),
    RemoveM (-5) aux (fuel + 1) s0 =
      match remLevelLoop aux 2 with
      | .crash => .crash
      | .fuelOut => .fuelOut
      | .retry t => .retry t
      | .ok _ => RemoveM (-5) aux fuel s0 := by
  intro aux fuel
  cases aux with
  | zero => rfl
  | succ a => rfl

/-- C1: Remove(key) returns false on an absent key, but on a key that is
present and live it never returns at all (for every fuel bound the execution
is still running), so it never returns true and a second call can never
observe false after a successful first call. -/
theorem remove_absent_false_present_never_returns :
    RemoveM (-7) 3 3 s0 = .ok (false, s0) ∧
    ∀ (aux fuel : Nat), RemoveM (-5) aux fuel s0 = .fuelOut := by
  constructor
  · rfl
  · intro aux fuel
    cases fuel with
    | zero => rfl
    | succ f =>
      rw [removeM_s0_step aux f, remLevelLoop_pos aux 2 (by omega)]

/-- C2: Insert on the present key -5 (state s3, where -5 holds value 10 and
its successor -3 holds value 20) returns true but writes the new value 99
into the successor node with key -3, leaving the matched node with key -5
unchanged at value 10. -/
theorem insert_existing_key_updates_wrong_node :
    InsertM (-5) 99 1 4 4 s3 = .ok (true, s3upd) ∧
    (s3upd.nodes.get? 2).map Node.key = some (-5) ∧
    (s3upd.nodes.get? 2).map Node.value = some 10 ∧
    (s3upd.nodes.get? 3).map Node.key = some (-3) ∧
    (s3upd.nodes.get? 3).map Node.value = some 99 := by
  exact ⟨rfl, rfl, rfl, rfl, rfl⟩

/-- C3: FindNode(-5) on s3 returns true because the final current node (the
level-0 successor of the head, id 2, key -5) matches the target, but succs[0]
holds id 3 (key -3), the node after the matched node, not the matched node
itself. -/
theorem findNode_succ0_is_not_matched_node :
    FindNodeM (-5) 4 4 s3 = .ok fd3 ∧
    fd3.found = true ∧
    readFwd s3 (some s3.headId) 0 = .ok (some 2) ∧
    (s3.nodes.get? 2).map Node.key = some (-5) ∧
    fd3.succs.get? 0 = some (some (some 3)) ∧
    (s3.nodes.get? 3).map Node.key = some (-3) := by
  exact ⟨rfl, rfl, rfl, rfl, rfl, rfl⟩

/-- One step of Insert(-5, 7) on s4: FindNode misses, the new node is
allocated, and the level-0 CAS anchored at succs[0] (the tail) compares the
tail forward pointer (nullptr) against the tail itself, fails, deletes the
node and loops. -/
theorem insertM_s4_step : ∀ (a fuel : Nat),
    InsertM (-5) 7 1 (a + 1) (fuel + 1) s4 = InsertM (-5) 7 1 (a + 1) fuel s4 := by
  intro a fuel
  rfl

/-- C6: inserting the fresh key -5 into s4 (which holds only -3) never
terminates for any fuel: the level-0 splice CAS is anchored at succs[0]
instead of preds[0], so it can never succeed and the operation discards the
node and retries forever. -/
theorem insert_fresh_key_never_links :
    ∀ (aux fuel : Nat), InsertM (-5) 7 1 aux fuel s4 = .fuelOut := by
  intro aux fuel
  induction fuel with
  | zero => rfl
  | succ f ih =>
    cases aux with
    | zero => rfl
    | succ a => rw [insertM_s4_step a f]; exact ih

/-- C7: whenever the current level is below the top level of the new node,
the raise loop of Insert never terminates and never changes the counter: its
CAS is guarded by iOldLevel >= iTopLevel, which is false on every iteration
the loop makes. -/
theorem updateCurrentLevel_never_raises :
    ∀ (top cur fuel : Nat), cur < top → updateCurrentLevel top cur fuel = none := by
  intro top cur fuel h
  induction fuel with
  | zero => show (if cur < top then none else some cur) = none; rw [if_pos h]
  | succ f ih =>
    show (if cur < top then
            if top ≤ cur then some top else updateCurrentLevel top cur f
          else some cur) = none
    rw [if_pos h, if_neg (by omega)]
    exact ih

theorem updateCurrentLevel_never_raises_witness :
    1 < 2 ∧ updateCurrentLevel 2 1 9 = none :=
  ⟨by omega, updateCurrentLevel_never_raises 2 1 9 (by omega)⟩

/-- C10: Node(k, v, L) yields key k, value v, top level L, marked and
fullyLinked both false, and a forward array of exactly L+1 slots that are all
nullptr. -/
theorem node_ctor_spec : ∀ (k v : Int) (L : Nat),
    (Node.init k v L).key = k ∧
    (Node.init k v L).value = v ∧
    (Node.init k v L).topLevel = L ∧
    (Node.init k v L).marked = false ∧
    (Node.init k v L).fullyLinked = false ∧
    (Node.init k v L).forward.length = L + 1 ∧
    (Node.init k v L).forward = List.replicate (L + 1) none := by
  intro k v L
  refine ⟨rfl, rfl, rfl, rfl, rfl, ?_, ?_⟩
  · show (initSlots (L + 1)).length = L + 1
    rw [initSlots_eq]
    exact List.length_replicate (L + 1) none
  · exact initSlots_eq (L + 1)

theorem removeM_ok (key : Int) (auxn : Nat) :
    ∀ (fuel : Nat) (s : SkipState) (b : Bool) (t : SkipState),
      RemoveM key auxn fuel s = .ok (b, t) → b = false ∧ FwdOnly s t := by
  intro fuel
  induction fuel with
  | zero => intro s b t h; cases h
  | succ f ih =>
    intro s b t h
    simp only [RemoveM] at h
    split at h
    · cases h
    · cases h
    · cases h
    · rename_i fd hfind
      split at h
      · split at h
        · split at h
          · cases h
          · split at h
            · cases h
            · cases h
            · cases h
            · obtain ⟨hb, hf⟩ := ih fd.state b t h
              exact ⟨hb, fwdOnly_trans (findNodeM_fwdOnly key auxn auxn s fd hfind) hf⟩
        · cases h
      · cases h
        exact ⟨rfl, findNodeM_fwdOnly key auxn auxn s fd hfind⟩

theorem option_map_marked_of_skel {o1 o2 : Option Node}
    (h : o1.map skel = o2.map skel) : o1.map Node.marked = o2.map Node.marked := by
  cases o1 with
  | none =>
    cases o2 with
    | none => rfl
    | some m => simp [skel] at h
  | some n =>
    cases o2 with
    | none => simp [skel] at h
    | some m =>
      simp only [Option.map_some'] at h ⊢
      have h1 : skel n = skel m := Option.some.inj h
      exact congrArg (fun q : Int × Int × Nat × Bool × Bool => some q.2.2.2.1) h1

/-- C4: whenever Remove returns at all, it returns false and leaves every
marked flag of every node exactly as it was: the code contains no CAS on the
marked flag and no unlink phase, so no execution of Remove ever logically
deletes (marks) or physically unlinks a node. -/
theorem remove_returns_false_and_never_marks :
    ∀ (key : Int) (auxn fuel : Nat) (s : SkipState) (b : Bool) (t : SkipState),
      RemoveM key auxn fuel s = .ok (b, t) →
      b = false ∧
      ∀ i, (t.nodes.get? i).map Node.marked = (s.nodes.get? i).map Node.marked := by
  intro key auxn fuel s b t h
  obtain ⟨hb, hf⟩ := removeM_ok key auxn fuel s b t h
  exact ⟨hb, fun i => option_map_marked_of_skel (hf.2.2.2.2 i)⟩

theorem remove_returns_false_and_never_marks_witness :
    false = false ∧
    ∀ i, (s0.nodes.get? i).map Node.marked = (s0.nodes.get? i).map Node.marked :=
  remove_returns_false_and_never_marks (-9) 3 3 s0 false s0 (by rfl)

theorem spinFully_no_retry (s : SkipState) (p : Ptr) :
    ∀ (f : Nat) (t : SkipState), spinFully s p f = .retry t → False := by
  intro f
  induction f with
  | zero => intro t h; cases h
  | succ n ih =>
    intro t h
    simp only [spinFully] at h
    split at h
    · cases h
    · cases h
    · exact ih t h

theorem writeValue_cur {s : SkipState} {p : Ptr} {v : Int} {t : SkipState}
    (h : writeValue s p v = .ok t) : t.currentLevel = s.currentLevel := by
  unfold writeValue at h
  split at h
  · cases h
  · split at h
    · cases h
    · cases h; rfl

theorem writeFully_cur {s : SkipState} {p : Ptr} {b : Bool} {t : SkipState}
    (h : writeFully s p b = .ok t) : t.currentLevel = s.currentLevel := by
  unfold writeFully at h
  split at h
  · cases h
  · split at h
    · cases h
    · cases h; rfl

theorem allocNode_cur {s : SkipState} {n : Node} {id : Nat} {t : SkipState}
    (h : allocNode s n = (id, t)) : t.currentLevel = s.currentLevel := by
  unfold allocNode at h
  cases h; rfl

theorem freeLast_cur (s : SkipState) : (freeLast s).currentLevel = s.currentLevel := rfl

theorem setFwd_ok_fwdOnly (id : Nat) (succs : List (Option Ptr)) :
    ∀ (cnt level : Nat) (s t : SkipState),
      setFwdFromSuccs id succs cnt level s = .ok t → FwdOnly s t := by
  intro cnt
  induction cnt with
  | zero => intro level s t h; cases h; exact fwdOnly_refl s
  | succ c ih =>
    intro level s t h
    simp only [setFwdFromSuccs] at h
    split at h
    · split at h
      · cases h
      · rename_i q xw s1 hw
        exact fwdOnly_trans (writeFwd_fwdOnly hw) (ih (level + 1) s1 t h)
    · cases h

theorem setFwd_no_retry (id : Nat) (succs : List (Option Ptr)) :
    ∀ (cnt level : Nat) (s t : SkipState),
      setFwdFromSuccs id succs cnt level s = .retry t → False := by
  intro cnt
  induction cnt with
  | zero => intro level s t h; cases h
  | succ c ih =>
    intro level s t h
    simp only [setFwdFromSuccs] at h
    split at h
    · split at h
      · cases h
      · rename_i q xw s1 hw
        exact ih (level + 1) s1 t h
    · cases h

theorem spliceOne_ok_fwdOnly (key : Int) (newId level auxn : Nat) :
    ∀ (fuel : Nat) (s : SkipState) (preds succs : List (Option Ptr))
      (r : SkipState × List (Option Ptr) × List (Option Ptr)),
      spliceOneLevel key newId level auxn fuel s preds succs = .ok r → FwdOnly s r.1 := by
  intro fuel
  induction fuel with
  | zero => intro s preds succs r h; cases h
  | succ f ih =>
    intro s preds succs r h
    simp only [spliceOneLevel] at h
    split at h
    · split at h
      · cases h
      · split at h
        · split at h
          · cases h
          · rename_i s1 hcas
            cases h
            exact casFwd_fwdOnly hcas
          · split at h
            · cases h
            · cases h
            · cases h
            · rename_i s1 hcas xf fd hfind
              exact fwdOnly_trans (casFwd_fwdOnly hcas)
                (fwdOnly_trans (findNodeM_fwdOnly key auxn auxn s1 fd hfind)
                  (ih fd.state fd.preds fd.succs r h))
        · split at h
          · cases h
          · cases h
          · cases h
          · rename_i fd hfind
            exact fwdOnly_trans (findNodeM_fwdOnly key auxn auxn s fd hfind)
              (ih fd.state fd.preds fd.succs r h)
    · cases h

theorem spliceOne_no_retry (key : Int) (newId level auxn : Nat) :
    ∀ (fuel : Nat) (s : SkipState) (preds succs : List (Option Ptr)) (t : SkipState),
      spliceOneLevel key newId level auxn fuel s preds succs = .retry t → False := by
  intro fuel
  induction fuel with
  | zero => intro s preds succs t h; cases h
  | succ f ih =>
    intro s preds succs t h
    simp only [spliceOneLevel] at h
    split at h
    · split at h
      · cases h
      · split at h
        · split at h
          · cases h
          · cases h
          · split at h
            · cases h
            · cases h
            · cases h
            · rename_i s1 hcas xf fd hfind
              exact ih fd.state fd.preds fd.succs t h
        · split at h
          · cases h
          · cases h
          · cases h
          · rename_i fd hfind
            exact ih fd.state fd.preds fd.succs t h
    · cases h

theorem spliceUpper_ok_fwdOnly (key : Int) (newId auxn : Nat) :
    ∀ (cnt level : Nat) (s : SkipState) (preds succs : List (Option Ptr))
      (r : SkipState × List (Option Ptr) × List (Option Ptr)),
      spliceUpper key newId auxn cnt level s preds succs = .ok r → FwdOnly s r.1 := by
  intro cnt
  induction cnt with
  | zero => intro level s preds succs r h; cases h; exact fwdOnly_refl s
  | succ c ih =>
    intro level s preds succs r h
    simp only [spliceUpper] at h
    split at h
    · cases h
    · cases h
    · cases h
    · rename_i s1 p1 q1 hone
      exact fwdOnly_trans
        (spliceOne_ok_fwdOnly key newId level auxn auxn s preds succs (s1, p1, q1) hone)
        (ih (level + 1) s1 p1 q1 r h)

theorem spliceUpper_no_retry (key : Int) (newId auxn : Nat) :
    ∀ (cnt level : Nat) (s : SkipState) (preds succs : List (Option Ptr)) (t : SkipState),
      spliceUpper key newId auxn cnt level s preds succs = .retry t → False := by
  intro cnt
  induction cnt with
  | zero => intro level s preds succs t h; cases h
  | succ c ih =>
    intro level s preds succs t h
    simp only [spliceUpper] at h
    split at h
    · cases h
    · cases h
    · rename_i t1 hone
      cases h
      exact spliceOne_no_retry key newId level auxn auxn s preds succs t hone
    · rename_i s1 p1 q1 hone
      exact ih (level + 1) s1 p1 q1 t h

theorem updateCurrentLevel_some (top cur : Nat) :
    ∀ (fuel c : Nat), updateCurrentLevel top cur fuel = some c → c = cur := by
  intro fuel
  induction fuel with
  | zero =>
    intro c h
    simp only [updateCurrentLevel] at h
    split at h
    · cases h
    · cases h; rfl
  | succ f ih =>
    intro c h
    simp only [updateCurrentLevel] at h
    split at h
    · split at h
      · omega
      · exact ih c h
    · cases h; rfl

theorem insertFound_cur (value : Int) (auxn : Nat) (s : SkipState) (pf : Ptr) :
    (∀ b t, insertFound value auxn s pf = .ok (b, t) → t.currentLevel = s.currentLevel) ∧
    (∀ t, insertFound value auxn s pf = .retry t → t.currentLevel = s.currentLevel) := by
  constructor
  · intro b t h
    simp only [insertFound] at h
    split at h
    · cases h
    · cases h
    · split at h
      · cases h
      · cases h
      · rename_i t1 hspin
        exact (spinFully_no_retry s pf auxn t1 hspin).elim
      · split at h
        · cases h
        · rename_i t1 hwv
          cases h
          exact writeValue_cur hwv
  · intro t h
    simp only [insertFound] at h
    split at h
    · cases h
    · cases h; rfl
    · split at h
      · cases h
      · cases h
      · rename_i t1 hspin
        exact (spinFully_no_retry s pf auxn t1 hspin).elim
      · split at h
        · cases h
        · cases h

theorem insertNew_cur (key value : Int) (top auxn : Nat) (fd : FindDone) :
    (∀ b t, insertNew key value top auxn fd = .ok (b, t) →
      t.currentLevel = fd.state.currentLevel) ∧
    (∀ t, insertNew key value top auxn fd = .retry t →
      t.currentLevel = fd.state.currentLevel) := by
  have halloc : allocNode fd.state (Node.init key value top) =
      ((allocNode fd.state (Node.init key value top)).1,
       (allocNode fd.state (Node.init key value top)).2) := rfl
  have hcur1 : (allocNode fd.state (Node.init key value top)).2.currentLevel =
      fd.state.currentLevel := allocNode_cur halloc
  constructor
  · intro b t h
    simp only [insertNew] at h
    split at h
    · cases h
    · cases h
    · rename_i t1 hsf
      exact (setFwd_no_retry _ fd.succs top 0 _ t1 hsf).elim
    · rename_i s2 hsf
      have e6 : s2.currentLevel = fd.state.currentLevel := by
        have := (setFwd_ok_fwdOnly _ fd.succs top 0 _ s2 hsf).2.1
        omega
      split at h
      · rename_i sc0
        split at h
        · cases h
        · rename_i s3 hwf
          have e5 : s3.currentLevel = s2.currentLevel := (writeFwd_fwdOnly hwf).2.1
          split at h
          · cases h
          · cases h
          · rename_i s4 hcas
            have e4 : s4.currentLevel = s3.currentLevel := (casFwd_fwdOnly hcas).2.1
            split at h
            · cases h
            · cases h
            · rename_i xr t1 hsu
              exact (spliceUpper_no_retry key _ auxn (top - 1) 1 s4
                fd.preds fd.succs t1 hsu).elim
            · rename_i xr s5 p5 q5 hsu
              have e3 : s5.currentLevel = s4.currentLevel :=
                (spliceUpper_ok_fwdOnly key _ auxn (top - 1) 1 s4
                  fd.preds fd.succs (s5, p5, q5) hsu).2.1
              split at h
              · cases h
              · rename_i c hup
                have e2 : c = s5.currentLevel :=
                  updateCurrentLevel_some top s5.currentLevel auxn c hup
                split at h
                · cases h
                · rename_i t6 hwfu
                  cases h
                  have e1 : t.currentLevel = c := writeFully_cur hwfu
                  omega
      · cases h
  · intro t h
    simp only [insertNew] at h
    split at h
    · cases h
    · cases h
    · rename_i t1 hsf
      exact (setFwd_no_retry _ fd.succs top 0 _ t1 hsf).elim
    · rename_i s2 hsf
      have e6 : s2.currentLevel = fd.state.currentLevel := by
        have := (setFwd_ok_fwdOnly _ fd.succs top 0 _ s2 hsf).2.1
        omega
      split at h
      · rename_i sc0
        split at h
        · cases h
        · rename_i s3 hwf
          have e5 : s3.currentLevel = s2.currentLevel := (writeFwd_fwdOnly hwf).2.1
          split at h
          · cases h
          · rename_i s4 hcas
            cases h
            have e4 : s4.currentLevel = s3.currentLevel := (casFwd_fwdOnly hcas).2.1
            have e8 : (freeLast s4).currentLevel = s4.currentLevel := rfl
            omega
          · rename_i s4 hcas
            split at h
            · cases h
            · cases h
            · rename_i xr t1 hsu
              exact (spliceUpper_no_retry key _ auxn (top - 1) 1 s4
                fd.preds fd.succs t1 hsu).elim
            · rename_i xr s5 p5 q5 hsu
              split at h
              · cases h
              · split at h
                · cases h
                · cases h
      · cases h

theorem insertM_cur (key value : Int) (top auxn : Nat) :
    ∀ (fuel : Nat) (s : SkipState) (b : Bool) (t : SkipState),
      InsertM key value top auxn fuel s = .ok (b, t) → t.currentLevel = s.currentLevel := by
  intro fuel
  induction fuel with
  | zero => intro s b t h; cases h
  | succ f ih =>
    intro s b t h
    simp only [InsertM] at h
    split at h
    · cases h
    · cases h
    · cases h
    · rename_i fd hfind
      have hc0 : fd.state.currentLevel = s.currentLevel :=
        (findNodeM_fwdOnly key auxn auxn s fd hfind).2.1
      split at h
      · rename_i t1 hstep
        have hc1 : t1.currentLevel = fd.state.currentLevel := by
          revert hstep
          split
          · split
            · intro hstep
              exact (insertFound_cur value auxn fd.state _).2 t1 hstep
            · intro hstep; cases hstep
          · intro hstep
            exact (insertNew_cur key value top auxn fd).2 t1 hstep
        have hc2 : t.currentLevel = t1.currentLevel := ih t1 b t h
        omega
      · cases h
      · cases h
      · rename_i r hstep
        cases h
        have hc1 : t.currentLevel = fd.state.currentLevel := by
          revert hstep
          split
          · split
            · intro hstep
              exact (insertFound_cur value auxn fd.state _).1 b t hstep
            · intro hstep; cases hstep
          · intro hstep
            exact (insertNew_cur key value top auxn fd).1 b t hstep
        omega

/-- C8: the current-max-level counter of a freshly constructed skip list is 1
and (for maxLevel at least 1) at most maxLevel; moreover no terminating Insert
and no terminating Remove ever changes it, so under any sequence of Insert and
Remove operations the counter never decreases and never exceeds maxLevel. -/
theorem currentLevel_one_and_invariant :
    ∀ m : Nat, 1 ≤ m →
      (mkSkipList m).currentLevel = 1 ∧
      (mkSkipList m).currentLevel ≤ m ∧
      (∀ (key value : Int) (top auxn fuel : Nat) (s : SkipState) (b : Bool) (t : SkipState),
        InsertM key value top auxn fuel s = .ok (b, t) → t.currentLevel = s.currentLevel) ∧
      (∀ (key : Int) (auxn fuel : Nat) (s : SkipState) (b : Bool) (t : SkipState),
        RemoveM key auxn fuel s = .ok (b, t) → t.currentLevel = s.currentLevel) := by
  intro m hm
  refine ⟨rfl, hm, ?_, ?_⟩
  · intro key value top auxn fuel s b t h
    exact insertM_cur key value top auxn fuel s b t h
  · intro key auxn fuel s b t h
    exact (removeM_ok key auxn fuel s b t h).2.2.1

theorem currentLevel_one_and_invariant_witness :
    (mkSkipList 2).currentLevel = 1 ∧ s3upd.currentLevel = s3.currentLevel :=
  ⟨(currentLevel_one_and_invariant 2 (by omega)).1,
   (currentLevel_one_and_invariant 2 (by omega)).2.2.1 (-5) 99 1 4 4 s3 true s3upd (by rfl)⟩

end GameRank
